import Mathlib

/-
  Verification development for the vf_ec repository.

  Shallow embedding of the two core subsystems:
  - the diff-aware coverage differential engine
    (src/coverage_intersection.py: get_diff_mapping, parse_lcov_info, main),
  - the adaptive energy calibration and sampling engine
    (src/find_cov_energy_perf.py: measure_energy_smart;
     src/coverage_script.py: measure_workload_once, read_rapl_energy;
     src/docker/openssl_docker/energy.py: measure_test).

  Python strings are modelled as Lean String (operating on the underlying
  List Char with structural recursion), Python ints as Int/Nat, Python
  floats as exact rationals (the only simplification: float rounding is
  replaced by exact arithmetic), Python dicts as insertion-ordered
  association lists with replace-on-update semantics, and exceptions /
  missing files as Option.
-/

set_option maxRecDepth 10000

/-! ## Python string primitives -/

/-- Whitespace characters stripped by Python `str.strip()`. -/
def isPyWS (c : Char) : Bool :=
  c = ' ' || c = '\t' || c = '\n' || c = '\r' || c = '\x0b' || c = '\x0c'

/-- Strip whitespace from both ends of a character list. -/
def stripWSL (cs : List Char) : List Char :=
  ((cs.dropWhile isPyWS).reverse.dropWhile isPyWS).reverse

/-- Python `s.strip()`. -/
def pyStrip (s : String) : String := ⟨stripWSL s.data⟩

/-- Does `s` start with the literal character sequence `pre`? -/
def startsWithL (s pre : List Char) : Bool :=
  match s, pre with
  | _, [] => true
  | [], _ :: _ => false
  | c :: cs, p :: ps => c == p && startsWithL cs ps

/-- Python `s.startswith(pre)`. -/
def pyStartsWith (s pre : String) : Bool := startsWithL s.data pre.data

/-- Substring test on character lists. -/
def hasSubL (hay needle : List Char) : Bool :=
  match hay with
  | [] => needle.isEmpty
  | _ :: t => startsWithL hay needle || hasSubL t needle

/-- Python `needle in hay` on strings. -/
def pyContains (hay needle : String) : Bool := hasSubL hay.data needle.data

/-- Python `s.endswith(suf)`. -/
def pyEndsWith (s suf : String) : Bool := startsWithL s.data.reverse suf.data.reverse

/-- Split a character list on a separator character (Python `str.split(sep)`). -/
def splitOnCharL (sep : Char) : List Char → List (List Char)
  | [] => [[]]
  | c :: rest =>
    let r := splitOnCharL sep rest
    if c == sep then [] :: r
    else
      match r with
      | g :: gs => (c :: g) :: gs
      | [] => [[c]]

/-- Python `s.split(sep)` for a one-character separator. -/
def pySplit (s : String) (sep : Char) : List String :=
  (splitOnCharL sep s.data).map (fun g => ⟨g⟩)

/-- Python `s[n:]`. -/
def pyDrop (s : String) (n : Nat) : String := ⟨s.data.drop n⟩

/-- Python `s[:-1]`. -/
def pyDropLast (s : String) : String := ⟨s.data.dropLast⟩

/-- Python `s.replace(str(c), "")`: delete every occurrence of character `c`. -/
def pyRemoveChar (s : String) (c : Char) : String := ⟨s.data.filter (fun x => !(x == c))⟩

/-- Numeric value of a decimal digit character. -/
def toDigit (c : Char) : Nat := c.toNat - 48

/-! ## Python `int()` and `float()` on strings -/

/-- Continue a digit run; Python allows a single underscore between digits. -/
def pyDigitsGo : List Char → Nat → Option Nat
  | [], acc => some acc
  | '_' :: c :: rest, acc =>
      if c.isDigit then pyDigitsGo rest (acc * 10 + toDigit c) else none
  | c :: rest, acc =>
      if c.isDigit then pyDigitsGo rest (acc * 10 + toDigit c) else none

/-- A whole character list as a digit run (at least one digit). -/
def pyDigitsAll (cs : List Char) : Option Nat :=
  match cs with
  | c :: rest => if c.isDigit then pyDigitsGo rest (toDigit c) else none
  | [] => none

/-- Python `int(s)`: strip whitespace, optional sign, digits; None on ValueError. -/
def pyIntL (cs : List Char) : Option Int :=
  match stripWSL cs with
  | '+' :: rest => (pyDigitsAll rest).map (fun n => (n : Int))
  | '-' :: rest => (pyDigitsAll rest).map (fun n => -(n : Int))
  | rest => (pyDigitsAll rest).map (fun n => (n : Int))

/-- Python `int(s)` on a string. -/
def pyInt (s : String) : Option Int := pyIntL s.data

/-- Consume a maximal digit group (underscores allowed between digits),
returning accumulated value, the power of ten counting consumed digits
(times the initial scale), and the remaining input. -/
def digitsGrpGo : List Char → Nat → Nat → Nat × Nat × List Char
  | '_' :: c :: rest, acc, sc =>
      if c.isDigit then digitsGrpGo rest (acc * 10 + toDigit c) (sc * 10)
      else (acc, sc, '_' :: c :: rest)
  | c :: rest, acc, sc =>
      if c.isDigit then digitsGrpGo rest (acc * 10 + toDigit c) (sc * 10)
      else (acc, sc, c :: rest)
  | [], acc, sc => (acc, sc, [])

/-- A digit group starting with a mandatory digit. -/
def digitGroup (cs : List Char) : Option (Nat × Nat × List Char) :=
  match cs with
  | c :: rest => if c.isDigit then some (digitsGrpGo rest (toDigit c) 10) else none
  | [] => none

/-- Exponent part of a Python float literal, after the `e`/`E`. -/
def pyExpPart (cs : List Char) : Option (Int × List Char) :=
  match cs with
  | '+' :: rest => (digitGroup rest).map (fun p => ((p.1 : Int), p.2.2))
  | '-' :: rest => (digitGroup rest).map (fun p => (-(p.1 : Int), p.2.2))
  | rest => (digitGroup rest).map (fun p => ((p.1 : Int), p.2.2))

/-- Assemble a float value from integer part, fraction digits and scale,
then parse an optional exponent; the input must be fully consumed. -/
def pyFloatFinish (ip fn fs : Nat) (rest : List Char) : Option ℚ :=
  let base : ℚ := (ip : ℚ) + (fn : ℚ) / (fs : ℚ)
  match rest with
  | [] => some base
  | 'e' :: r => (pyExpPart r).bind
      (fun p => if p.2.isEmpty then some (base * (10 : ℚ) ^ p.1) else none)
  | 'E' :: r => (pyExpPart r).bind
      (fun p => if p.2.isEmpty then some (base * (10 : ℚ) ^ p.1) else none)
  | _ => none

/-- Unsigned body of a Python float literal:
`digits [. [digits]] [exp]` or `. digits [exp]`. -/
def pyFloatBody (cs : List Char) : Option ℚ :=
  match cs with
  | '.' :: rest =>
      match digitGroup rest with
      | some (fn, fs, r1) => pyFloatFinish 0 fn fs r1
      | none => none
  | _ =>
      match digitGroup cs with
      | some (ip, _, r1) =>
          match r1 with
          | '.' :: r2 =>
              match digitGroup r2 with
              | some (fn, fs, r3) => pyFloatFinish ip fn fs r3
              | none => pyFloatFinish ip 0 1 r2
          | _ => pyFloatFinish ip 0 1 r1
      | none => none

/-- Python `float(s)` (finite decimal literals; `inf`/`nan` forms excluded,
they never occur in perf CSV output). None models ValueError. -/
def pyFloatL (cs : List Char) : Option ℚ :=
  match stripWSL cs with
  | '+' :: rest => pyFloatBody rest
  | '-' :: rest => (pyFloatBody rest).map (fun q => -q)
  | rest => pyFloatBody rest

/-- Python `float(s)` on a string. -/
def pyFloat (s : String) : Option ℚ := pyFloatL s.data

/-- Python `int(x)` on a float: truncation toward zero. On a reduced
rational with positive denominator this is T-division of the numerator by
the denominator. -/
def ratTrunc (q : ℚ) : Int := q.num.tdiv (q.den : Int)

/-! ## Association lists with Python dict semantics -/

/-- Dict lookup (`d.get(k)` / `k in d`). -/
def alookup {α β : Type} [DecidableEq α] : List (α × β) → α → Option β
  | [], _ => none
  | (k, v) :: rest, a => if k = a then some v else alookup rest a

/-- Dict assignment `d[k] = v`: replace in place, or append a new key. -/
def aupdate {α β : Type} [DecidableEq α] (l : List (α × β)) (k : α) (v : β) :
    List (α × β) :=
  if (alookup l k).isSome then l.map (fun p => if p.1 = k then (k, v) else p)
  else l ++ [(k, v)]

/-! ## HunkMapper: get_diff_mapping (src/coverage_intersection.py lines 39-64) -/

/-- One line-correspondence record (`{"file": ..., "v_lnum": ..., "f_lnum": ...}`). -/
structure LineCorr where
  file : String
  v_lnum : Option Nat
  f_lnum : Option Nat
deriving DecidableEq, Repr

/-- Match the regex `^@@ -(\d+)(?:,(\d+))? \+(\d+)(?:,(\d+))? @@` at the start
of the input, yielding the four capture groups. Helper: a maximal digit run. -/
def munchDigits : List Char → Nat → Nat × List Char
  | c :: rest, acc =>
      if c.isDigit then munchDigits rest (acc * 10 + toDigit c) else (acc, c :: rest)
  | [], acc => (acc, [])

/-- `(\d+)`: at least one digit, maximal munch. -/
def reDigits : List Char → Option (Nat × List Char)
  | c :: rest => if c.isDigit then some (munchDigits rest (toDigit c)) else none
  | [] => none

/-- `(?:,(\d+))?`: an optional comma-prefixed length group. A comma not
followed by a digit fails the whole match (the next literal is a space). -/
def reOptLen (cs : List Char) : Option (Option Nat × List Char) :=
  match cs with
  | ',' :: rest =>
      match reDigits rest with
      | some (n, r) => some (some n, r)
      | none => none
  | _ => some (none, cs)

/-- Require a literal character-sequence prefix. -/
def dropPrefixL (s pre : List Char) : Option (List Char) :=
  match s, pre with
  | s, [] => some s
  | [], _ :: _ => none
  | c :: cs, p :: ps => if c == p then dropPrefixL cs ps else none

/-- `hunk_regex.match(line)`: the four groups of
`^@@ -(\d+)(?:,(\d+))? \+(\d+)(?:,(\d+))? @@` (trailing text unconstrained). -/
def parseHunkGroups (line : String) : Option (Nat × Option Nat × Nat × Option Nat) :=
  match dropPrefixL line.data "@@ -".data with
  | none => none
  | some r0 =>
    match reDigits r0 with
    | none => none
    | some (g1, r1) =>
      match reOptLen r1 with
      | none => none
      | some (g2, r2) =>
        match dropPrefixL r2 " +".data with
        | none => none
        | some r3 =>
          match reDigits r3 with
          | none => none
          | some (g3, r4) =>
            match reOptLen r4 with
            | none => none
            | some (g4, r5) =>
              match dropPrefixL r5 " @@".data with
              | none => none
              | some _ => some (g1, g2, g3, g4)

/-- The per-hunk emission loop: for `i in range(max(v_len, f_len))` append
`(v_start+i if i < v_len else None, f_start+i if i < f_len else None)`. -/
def expandHunk (file : String) (vStart vLen fStart fLen : Nat) : List LineCorr :=
  (List.range (max vLen fLen)).map fun i =>
    ⟨file, if i < vLen then some (vStart + i) else none,
           if i < fLen then some (fStart + i) else none⟩

/-- Records emitted for one `@@` line: parse the header, default omitted
lengths to 1 (`int(match.group(2)) if match.group(2) else 1`), expand;
a non-matching header emits nothing. -/
def hunkRecords (cf : String) (line : String) : List LineCorr :=
  match parseHunkGroups line with
  | some (vs, og2, fs, og4) => expandHunk cf vs (og2.getD 1) fs (og4.getD 1)
  | none => []

/-- The line loop of get_diff_mapping: track `current_file` from `--- a/`
headers; on an `@@` line with a truthy current file, append the hunk records. -/
def get_diff_mapping_go : Option String → List String → List LineCorr
  | _, [] => []
  | cf, l :: rest =>
    if pyStartsWith l "--- a/" then
      get_diff_mapping_go (some (pyStrip (pyDrop l 6))) rest
    else if pyStartsWith l "@@" then
      match cf with
      | some f =>
          if f ≠ "" then hunkRecords f l ++ get_diff_mapping_go cf rest
          else get_diff_mapping_go cf rest
      | none => get_diff_mapping_go cf rest
    else get_diff_mapping_go cf rest

/-- get_diff_mapping on the diff text, starting with no current file. -/
def get_diff_mapping (lines : List String) : List LineCorr :=
  get_diff_mapping_go none lines

/-! ## CoverageIndex: parse_lcov_info (src/coverage_intersection.py lines 66-82) -/

/-- Inner per-file map: line number → hit count (`{int(parts[0]): int(parts[1])}`). -/
abbrev LineMap := List (Int × Int)

/-- Outer index: normalized source-file path → LineMap. -/
abbrev LcovIndex := List (String × LineMap)

/-- The line loop of parse_lcov_info. `norm` stands for the path
normalization `os.path.relpath(full_path, PROJECT_PATH) if PROJECT_PATH in
full_path else full_path` (an external path collaborator, abstracted as a
function of the raw `SF:` payload). An `SF:` line opens (and resets) that
file's section; a `DA:` line under a truthy current section stores
`{line: hits}`; an unparseable or truncated `DA:` payload raises, which the
function does not catch, so the whole parse is `none`. -/
def parse_lcov_go (norm : String → String) :
    Option String → LcovIndex → List String → Option LcovIndex
  | _, cov, [] => some cov
  | csf, cov, l :: rest =>
    let line := pyStrip l
    if pyStartsWith line "SF:" then
      let sf := norm (pyDrop line 3)
      parse_lcov_go norm (some sf) (aupdate cov sf []) rest
    else if pyStartsWith line "DA:" then
      match csf with
      | some sf =>
          if sf ≠ "" then
            match pySplit (pyDrop line 3) ',' with
            | p0 :: p1 :: _ =>
                match pyInt p0, pyInt p1 with
                | some ln, some h =>
                    match alookup cov sf with
                    | some m => parse_lcov_go norm csf (aupdate cov sf (aupdate m ln h)) rest
                    | none => none
                | _, _ => none
            | _ => none
          else parse_lcov_go norm csf cov rest
      | none => parse_lcov_go norm csf cov rest
    else parse_lcov_go norm csf cov rest

/-- parse_lcov_info: a missing report file (`none`) yields the empty index
without reading anything; otherwise the report's lines are folded. -/
def parse_lcov_info (norm : String → String) : Option (List String) → Option LcovIndex
  | none => some []
  | some lines => parse_lcov_go norm none [] lines

/-- Lookup of one (file, line) pair in the parsed index. -/
def lookupLine (cov : LcovIndex) (f : String) (ln : Int) : Option Int :=
  (alookup cov f).bind (fun m => alookup m ln)

/-- Observation: the normalized paths of the report's `SF:` lines, in order. -/
def sfKeys (norm : String → String) (lines : List String) : List String :=
  lines.filterMap (fun l =>
    let line := pyStrip l
    if pyStartsWith line "SF:" then some (norm (pyDrop line 3)) else none)

/-- Observation: does an explicit `DA:` record for line `ln` appear in
the section of file `f` (tracking the current section like the parser,
but only reading)? -/
def daRecorded (norm : String → String) (f : String) (ln : Int) :
    Option String → List String → Bool
  | _, [] => false
  | csf, l :: rest =>
    let line := pyStrip l
    if pyStartsWith line "SF:" then
      daRecorded norm f ln (some (norm (pyDrop line 3))) rest
    else if pyStartsWith line "DA:" then
      match csf with
      | some sf =>
          if sf ≠ "" then
            ((match pySplit (pyDrop line 3) ',' with
              | p0 :: _ :: _ => decide (sf = f) && (pyInt p0 == some ln)
              | _ => false) || daRecorded norm f ln csf rest)
          else daRecorded norm f ln csf rest
      | none => daRecorded norm f ln csf rest
    else daRecorded norm f ln csf rest

/-- Observation: does a `DA:` record for line `ln` with hit count `h`
appear in the section of file `f`? -/
def daRecordedVal (norm : String → String) (f : String) (ln h : Int) :
    Option String → List String → Bool
  | _, [] => false
  | csf, l :: rest =>
    let line := pyStrip l
    if pyStartsWith line "SF:" then
      daRecordedVal norm f ln h (some (norm (pyDrop line 3))) rest
    else if pyStartsWith line "DA:" then
      match csf with
      | some sf =>
          if sf ≠ "" then
            ((match pySplit (pyDrop line 3) ',' with
              | p0 :: p1 :: _ => decide (sf = f) && (pyInt p0 == some ln) && (pyInt p1 == some h)
              | _ => false) || daRecordedVal norm f ln h csf rest)
          else daRecordedVal norm f ln h csf rest
      | none => daRecordedVal norm f ln h csf rest
    else daRecordedVal norm f ln h csf rest

/-! ## DiffCoverageJoiner: the per-pair loop of main
(src/coverage_intersection.py lines 104-160) -/

/-- A hit-count cell: an integer, or the string `"N/A"`. -/
inductive HitVal where
  | na
  | cnt (n : Int)
deriving DecidableEq, Repr

/-- One row appended to `all_rows` (commit-pair column omitted; it is
constant within one pair). `v_line_number`/`f_line_number` are `none`
where the CSV shows `"N/A"` (Python truthiness: `None` and `0` both fall
to `"N/A"`). -/
structure JoinRow where
  file : String
  v_line_number : Option Nat
  vuln_snippet : String
  vuln_hits : HitVal
  f_line_number : Option Nat
  fix_snippet : String
  fix_hits : HitVal
  is_executable : Bool
deriving DecidableEq, Repr

/-- Per-pair counters `v_total, v_hit, f_total, f_hit`. -/
structure PairTotals where
  v_total : Nat
  v_hit : Nat
  f_total : Nat
  f_hit : Nat
deriving DecidableEq, Repr

/-- Python truthiness of a line number (`if v_lnum:`): false for `None` and `0`. -/
def truthyLine : Option Nat → Bool
  | none => false
  | some n => n != 0

/-- File-content lookup tables (`get_file_content_at_commit` results). -/
abbrev ContMap := List (String × List (Nat × String))

/-- `v_lnum in v_cov.get(fname, {}) if v_lnum else False`. -/
def covHas (cov : LcovIndex) (f : String) (ln : Option Nat) : Bool :=
  match ln with
  | some n => if n != 0 then (alookup ((alookup cov f).getD []) (n : Int)).isSome else false
  | none => false

/-- `v_cov.get(fname, {}).get(v_lnum, 0) if v_lnum else "N/A"`. -/
def covHits (cov : LcovIndex) (f : String) (ln : Option Nat) : HitVal :=
  match ln with
  | some n => if n != 0 then .cnt ((alookup ((alookup cov f).getD []) (n : Int)).getD 0) else .na
  | none => .na

/-- `contents.get(fname, {}).get(lnum, dflt).strip() if lnum else dflt`. -/
def snippetOf (cont : ContMap) (f : String) (ln : Option Nat) (dflt : String) : String :=
  match ln with
  | some n => if n != 0 then pyStrip ((alookup ((alookup cont f).getD []) n).getD dflt) else dflt
  | none => dflt

/-- The CSV cell for a line number: the number when truthy, else `"N/A"` (none). -/
def lineCell (ln : Option Nat) : Option Nat :=
  match ln with
  | some n => if n != 0 then some n else none
  | none => none

/-- Build the row appended to `all_rows` for one diff-map item. -/
def mkRow (vCov fCov : LcovIndex) (vCont fCont : ContMap) (it : LineCorr) : JoinRow :=
  { file := it.file
    v_line_number := lineCell it.v_lnum
    vuln_snippet := snippetOf vCont it.file it.v_lnum "[ADDED]"
    vuln_hits := covHits vCov it.file it.v_lnum
    f_line_number := lineCell it.f_lnum
    fix_snippet := snippetOf fCont it.file it.f_lnum "[DELETED]"
    fix_hits := covHits fCov it.file it.f_lnum
    is_executable := covHas vCov it.file it.v_lnum || covHas fCov it.file it.f_lnum }

/-- Is the looked-up hit count of a truthy line strictly positive
(`isinstance(vh, int) and vh > 0` inside the truthy branch)? -/
def hitPos (cov : LcovIndex) (f : String) (ln : Option Nat) : Bool :=
  match ln with
  | some n => if n != 0 then decide (0 < ((alookup ((alookup cov f).getD []) (n : Int)).getD 0)) else false
  | none => false

/-- Update the per-pair counters for one diff-map item. -/
def updTotals (vCov fCov : LcovIndex) (t : PairTotals) (it : LineCorr) : PairTotals :=
  { v_total := t.v_total + (if truthyLine it.v_lnum then 1 else 0)
    v_hit := t.v_hit + (if truthyLine it.v_lnum && hitPos vCov it.file it.v_lnum then 1 else 0)
    f_total := t.f_total + (if truthyLine it.f_lnum then 1 else 0)
    f_hit := t.f_hit + (if truthyLine it.f_lnum && hitPos fCov it.file it.f_lnum then 1 else 0) }

/-- One iteration of `for item in diff_map:` accumulating rows and counters. -/
def processItem (vCov fCov : LcovIndex) (vCont fCont : ContMap)
    (acc : List JoinRow × PairTotals) (it : LineCorr) : List JoinRow × PairTotals :=
  (acc.1 ++ [mkRow vCov fCov vCont fCont it], updTotals vCov fCov acc.2 it)

/-- The whole per-pair loop over the diff map. -/
def processDiffMap (vCov fCov : LcovIndex) (vCont fCont : ContMap)
    (dm : List LineCorr) : List JoinRow × PairTotals :=
  dm.foldl (processItem vCov fCov vCont fCont) ([], ⟨0, 0, 0, 0⟩)

/-- Per-pair summary (coverage percentages as exact rationals; the `:.2f%`
string formatting is presentational). -/
structure PairSummary where
  v_lines : Nat
  v_hits : Nat
  v_cov_pct : ℚ
  f_lines : Nat
  f_hits : Nat
  f_cov_pct : ℚ
deriving DecidableEq, Repr

/-- `{(v_hit/v_total)*100 if v_total > 0 else 0}` and the fix-side twin. -/
def mkSummary (t : PairTotals) : PairSummary :=
  { v_lines := t.v_total
    v_hits := t.v_hit
    v_cov_pct := if 0 < t.v_total then ((t.v_hit : ℚ) / (t.v_total : ℚ)) * 100 else 0
    f_lines := t.f_total
    f_hits := t.f_hit
    f_cov_pct := if 0 < t.f_total then ((t.f_hit : ℚ) / (t.f_total : ℚ)) * 100 else 0 }

/-- `rows_to_write` for one output file: keep the rows passing the filter
(the `is_executable` key is dropped only in the serialized CSV). -/
def rowsToWrite (rows : List JoinRow) (keep : JoinRow → Bool) : List JoinRow :=
  rows.filter keep

/-- The master CSV view: `data_filter = lambda x: True`. -/
def masterView (rows : List JoinRow) : List JoinRow :=
  rowsToWrite rows (fun _ => true)

/-- The clean CSV view: `data_filter = lambda x: x['is_executable']`. -/
def cleanView (rows : List JoinRow) : List JoinRow :=
  rowsToWrite rows (fun r => r.is_executable)

/-! ## EnergyCalibrator: the dry-run loop-count computation
(src/find_cov_energy_perf.py lines 27, 173-187) -/

/-- `MIN_DURATION_SEC = 0.1`. -/
def MIN_DURATION_SEC : ℚ := 1 / 10

/-- The loop-count determination: `loop_count = 1`; if the dry-run duration
is below `MIN_DURATION_SEC`, `safe_dur = max(duration, 0.000001)`,
`loop_count = min(int(0.5 / safe_dur), 2000)`. -/
def calibrateLoopCount (duration : ℚ) : Nat :=
  if duration < MIN_DURATION_SEC then
    let safe_dur := max duration (1 / 1000000)
    min (ratTrunc ((1 / 2) / safe_dur)).toNat 2000
  else 1

/-- Modelled from the claim's words (for refinement comparison only, not
from the source): "if d ≥ 0.5 s then loop_count = 1, otherwise
loop_count = clamp(ceil(0.5/d), 1, 2000)". -/
def claimedLoopCountSpec (duration : ℚ) : Int :=
  if (1 / 2 : ℚ) ≤ duration then 1
  else max 1 (min (Int.ceil ((1 / 2) / duration)) 2000)

/-! ## PerfSession parsing inside measure_energy_smart
(src/find_cov_energy_perf.py lines 197-232) -/

/-- The mutable dict `m = {"energy": 0.0, "cycles": 0, "instructions": 0,
"time": 0.0}` being filled by the perf-output loop. -/
structure SmartRaw where
  energy : ℚ
  cycles : Int
  instructions : Int
  time : ℚ
deriving DecidableEq, Repr

/-- One line of the perf `-x,` output file: split on commas; skip rows with
fewer than 3 fields, `"<not supported>"` rows and empty first fields; a
first field that `float()` rejects (for example `"<not counted>"`) raises
inside the `try` and is skipped; otherwise the matching metric is
ASSIGNED (overwritten, not summed). -/
def parseSmartLine (st : SmartRaw) (l : String) : SmartRaw :=
  match pySplit (pyStrip l) ',' with
  | p0 :: _ :: p2 :: _ =>
      if pyContains p0 "<not supported>" || p0 = "" then st
      else
        match pyFloat p0 with
        | none => st
        | some val =>
            if pyContains p2 "power/energy-pkg" then { st with energy := val }
            else if pyContains p2 "cycles" then { st with cycles := ratTrunc val }
            else if pyContains p2 "instructions" then { st with instructions := ratTrunc val }
            else if pyContains p2 "task-clock" then { st with time := val / 1000 }
            else st
  | _ => st

/-- Fold the perf output file's lines over the zero-initialized dict. -/
def parseSmartLines (lines : List String) : SmartRaw :=
  lines.foldl parseSmartLine ⟨0, 0, 0, 0⟩

/-- A parsed measurement after normalization, with its IPC. -/
structure SmartMeas where
  energy : ℚ
  cycles : Int
  instructions : Int
  time : ℚ
  ipc : ℚ
deriving DecidableEq, Repr

/-- The normalization step: if `loop_count > 1` divide energy and time
exactly and cycles/instructions by `int(x / loop_count)` truncation; then
`ipc = instructions/cycles if cycles > 0 else 0`. -/
def normalizeSmart (m : SmartRaw) (loop_count : Nat) : SmartMeas :=
  let m' : SmartRaw :=
    if 1 < loop_count then
      { energy := m.energy / (loop_count : ℚ)
        cycles := ratTrunc ((m.cycles : ℚ) / (loop_count : ℚ))
        instructions := ratTrunc ((m.instructions : ℚ) / (loop_count : ℚ))
        time := m.time / (loop_count : ℚ) }
    else m
  { energy := m'.energy
    cycles := m'.cycles
    instructions := m'.instructions
    time := m'.time
    ipc := if 0 < m'.cycles then (m'.instructions : ℚ) / (m'.cycles : ℚ) else 0 }

/-- Environment outcome of one repetition of the perf command:
`run_cmd` failed; `run_cmd` succeeded but the output file is missing;
or the output file's lines. -/
inductive RepOutcome where
  | fail
  | noFile
  | output (lines : List String)
deriving DecidableEq, Repr

/-- The measurement appended for one repetition, if any: only a successful
run with an existing output file parses, normalizes and appends. -/
def repMeasurement (lc : Nat) : RepOutcome → Option SmartMeas
  | .fail => none
  | .noFile => none
  | .output lines => some (normalizeSmart (parseSmartLines lines) lc)

/-- `measurements` after the repetition loop (the code iterates 3 times;
`reps` lists the environment outcome of each iteration). -/
def collectMeasurements (reps : List RepOutcome) (lc : Nat) : List SmartMeas :=
  reps.filterMap (repMeasurement lc)

/-- Insert into a sorted list of rationals. -/
def insertSorted (q : ℚ) : List ℚ → List ℚ
  | [] => [q]
  | x :: xs => if q ≤ x then q :: x :: xs else x :: insertSorted q xs

/-- Sort a list of rationals. -/
def sortQ (xs : List ℚ) : List ℚ := xs.foldr insertSorted []

/-- `statistics.median`: middle element of the sorted list, or the mean of
the two middles (0 on an empty list, which the call site never passes:
`statistics.median` raises there and the code guards with
`if not measurements: return None`). -/
def medianQ (xs : List ℚ) : ℚ :=
  let s := sortQ xs
  let n := s.length
  if n = 0 then 0
  else if n % 2 = 1 then s.getD (n / 2) 0
  else (s.getD (n / 2 - 1) 0 + s.getD (n / 2) 0) / 2

/-- The aggregated per-metric medians (`statistics.median` of integer lists
can be a half-integer, so every field is rational). -/
structure AggMeas where
  energy : ℚ
  cycles : ℚ
  instructions : ℚ
  time : ℚ
  ipc : ℚ
deriving DecidableEq, Repr

/-- `if not measurements: return None` else the per-key median dict. -/
def aggregateMeasurements (ms : List SmartMeas) : Option AggMeas :=
  match ms with
  | [] => none
  | _ =>
      some { energy := medianQ (ms.map (·.energy))
             cycles := medianQ (ms.map (fun m => (m.cycles : ℚ)))
             instructions := medianQ (ms.map (fun m => (m.instructions : ℚ)))
             time := medianQ (ms.map (·.time))
             ipc := medianQ (ms.map (·.ipc)) }

/-- measure_energy_smart, with the environment made explicit: `dryRunOk`
is the success of the dry run (the code calls
`run_cmd(f"{base_cmd} > /dev/null 2>&1", repo_path, ignore_errors=True)`
as a bare statement and never inspects the result, so the argument is
deliberately unused, mirroring the source); `duration` is the dry run's
wall-clock time; `reps` the outcomes of the three perf repetitions. -/
def measure_energy_smart (dryRunOk : Bool) (duration : ℚ)
    (reps : List RepOutcome) : Option AggMeas :=
  let _ := dryRunOk
  let loop_count := calibrateLoopCount duration
  aggregateMeasurements (collectMeasurements reps loop_count)

/-! ## PerfSession parsing inside measure_workload_once
(src/coverage_script.py lines 466-505, active copy) -/

/-- The counter accumulation state (`cycles_total`, `instr_total`,
`found_cycles`, `found_instr`). -/
structure WorkCounts where
  cycles_total : Int
  instr_total : Int
  found_cycles : Bool
  found_instr : Bool
deriving DecidableEq, Repr

/-- Event-name normalization: strip, drop one trailing `/`, take the last
`/`-separated component. -/
def baseEventOf (event : String) : String :=
  let e := pyStrip event
  let e := if pyEndsWith e "/" then pyDropLast e else e
  (pySplit e '/').getLastD ""

/-- One perf stderr line of measure_workload_once: fields are stripped;
rows with fewer than 3 fields or starting `"<not counted>"` are skipped;
thousands separators and dots are removed before `int()` (a ValueError,
for example on `"<not supported>"`, skips the row); cycles and
instructions rows ADD into their totals. -/
def parseWorkloadLine (st : WorkCounts) (l : String) : WorkCounts :=
  match (pySplit l ',').map pyStrip with
  | value_str :: _ :: event :: _ =>
      if pyStartsWith value_str "<not counted>" then st
      else
        match pyInt (pyRemoveChar (pyRemoveChar value_str ',') '.') with
        | none => st
        | some v =>
            let base_event := baseEventOf event
            let st :=
              if pyContains base_event "cycles" then
                { st with cycles_total := st.cycles_total + v, found_cycles := true }
              else st
            if pyContains base_event "instructions" then
              { st with instr_total := st.instr_total + v, found_instr := true }
            else st
  | _ => st

/-- Fold the perf stderr lines; if either counter was never found the
function raises (`none`), otherwise the two totals. -/
def measure_workload_counts (lines : List String) : Option (Int × Int) :=
  let st := lines.foldl parseWorkloadLine ⟨0, 0, false, false⟩
  if st.found_cycles && st.found_instr then some (st.cycles_total, st.instr_total)
  else none

/-! ## RAPL energy computation (src/coverage_script.py lines 411-417, 508-514) -/

/-- `delta = e_end - e_start; if delta < 0: delta += 2**32`. -/
def energyDeltaUJ (e_start e_end : Int) : Int :=
  let delta := e_end - e_start
  if delta < 0 then delta + 2 ^ 32 else delta

/-- `energy_j = delta / 1_000_000.0`. -/
def energyJoules (e_start e_end : Int) : ℚ :=
  (energyDeltaUJ e_start e_end : ℚ) / 1000000

/-- The `energy_j` field: computed only when both RAPL readings are
available (`if e_start is not None and e_end is not None`), else None. -/
def energyField (e_start e_end : Option Int) : Option ℚ :=
  match e_start, e_end with
  | some a, some b => some (energyJoules a b)
  | _, _ => none

/-! ## The per-iteration failure cleanup of measure_test
(src/docker/openssl_docker/energy.py lines 94-112) -/

/-- The set of written perf output files after one measure_test iteration
finishes with return code `ret`: on a non-zero code the iteration's file
is removed (`if os.path.exists(perf_out): os.remove(perf_out)`) and the
function returns; on success it is kept. -/
def measureTestCleanup (written : List String) (perf_out : String) (ret : Int) :
    List String :=
  if ret ≠ 0 then written.filter (fun f => f ≠ perf_out) else written


/-- Observation (for stating C4): the integer contribution a line makes in
measure_workload_once when it is a counted, parseable row whose normalized
event name contains `name`. -/
def workRowVal (l : String) (name : String) : Option Int :=
  match (pySplit l ',').map pyStrip with
  | value_str :: _ :: event :: _ =>
      if pyStartsWith value_str "<not counted>" then none
      else
        match pyInt (pyRemoveChar (pyRemoveChar value_str ',') '.') with
        | none => none
        | some v => if pyContains (baseEventOf event) name then some v else none
  | _ => none

/-- Observation (for stating C4): the float value of a line that the
measure_energy_smart parser treats as a cycles row. -/
def smartCyclesRowVal (l : String) : Option ℚ :=
  match pySplit (pyStrip l) ',' with
  | p0 :: _ :: p2 :: _ =>
      if pyContains p0 "<not supported>" || p0 = "" then none
      else
        match pyFloat p0 with
        | none => none
        | some val =>
            if pyContains p2 "power/energy-pkg" then none
            else if pyContains p2 "cycles" then some val
            else none
  | _ => none


/-- The C2 end-to-end scenario: the diff text of a 3-line-vuln to
1-line-fix hunk at line 10 of `x.c`. -/
def c2DiffLines : List String := ["--- a/x.c", "@@ -10,3 +10,1 @@"]

/-- The C2 scenario's joined rows: vuln-side coverage has an entry only
for vuln line 11 (3 hits), fix-side only for fix line 10 (5 hits); no
source snippets are available. -/
def c2Rows : List JoinRow :=
  (processDiffMap [("x.c", [(11, 3)])] [("x.c", [(10, 5)])] [] []
    (get_diff_mapping c2DiffLines)).1

/-! ## Claim C1 -/

lemma dropPrefixL_some_head (c : Char) (cs : List Char) (p : Char) (ps : List Char)
    (r : List Char) (h : dropPrefixL (c :: cs) (p :: ps) = some r) : c = p := by
  unfold dropPrefixL at h
  by_cases hc : c == p
  · exact eq_of_beq hc
  · simp [hc] at h

lemma parseHunk_not_file_header (line : String) (x : Nat × Option Nat × Nat × Option Nat)
    (h : parseHunkGroups line = some x) : pyStartsWith line "--- a/" = false := by
  unfold parseHunkGroups at h
  cases hd : dropPrefixL line.data "@@ -".data with
  | none => rw [hd] at h; exact absurd h (by simp)
  | some r0 =>
    have hdata : "@@ -".data = ['@', '@', ' ', '-'] := rfl
    rw [hdata] at hd
    cases hl : line.data with
    | nil => rw [hl] at hd; exact absurd hd (by simp [dropPrefixL])
    | cons c cs =>
      rw [hl] at hd
      have hc : c = '@' := dropPrefixL_some_head _ _ _ _ _ hd
      have hdata2 : "--- a/".data = ['-', '-', '-', ' ', 'a', '/'] := rfl
      simp [pyStartsWith, hl, hdata2, startsWithL, hc]

/-- C1: every hunk header matched by get_diff_mapping's regex (an omitted
length group defaulting to 1 via `.getD 1`) emits exactly
`max(v_len, f_len)` records for that hunk, the i-th carrying
`v_start + i` when `i < v_len` and None otherwise, and `f_start + i` when
`i < f_len` and None otherwise; and the line loop of get_diff_mapping
appends exactly these records when it meets the hunk line. -/
theorem claim_C1 (f line : String) (vs fs : Nat) (og2 og4 : Option Nat)
    (h : parseHunkGroups line = some (vs, og2, fs, og4)) :
    (hunkRecords f line).length = max (og2.getD 1) (og4.getD 1) ∧
    (∀ i : Nat, i < max (og2.getD 1) (og4.getD 1) →
      (hunkRecords f line)[i]? =
        some ⟨f, if i < og2.getD 1 then some (vs + i) else none,
                 if i < og4.getD 1 then some (fs + i) else none⟩) ∧
    (∀ rest : List String, f ≠ "" →
      get_diff_mapping_go (some f) (line :: rest) =
        hunkRecords f line ++ get_diff_mapping_go (some f) rest) := by
  have hrec : hunkRecords f line = expandHunk f vs (og2.getD 1) fs (og4.getD 1) := by
    unfold hunkRecords; rw [h]
  refine ⟨?_, ?_, ?_⟩
  · rw [hrec]; simp [expandHunk]
  · intro i hi
    rw [hrec]
    simp [expandHunk, List.getElem?_map, List.getElem?_range, hi]
  · intro rest hf
    have hns := parseHunk_not_file_header line _ h
    have hsw : pyStartsWith line "@@" = true := by
      unfold parseHunkGroups at h
      cases hd : dropPrefixL line.data "@@ -".data with
      | none => rw [hd] at h; exact absurd h (by simp)
      | some r0 =>
        have hdata : "@@ -".data = ['@', '@', ' ', '-'] := rfl
        rw [hdata] at hd
        cases hl : line.data with
        | nil => rw [hl] at hd; exact absurd hd (by simp [dropPrefixL])
        | cons c cs =>
          rw [hl] at hd
          have hc : c = '@' := dropPrefixL_some_head _ _ _ _ _ hd
          cases hl2 : cs with
          | nil =>
            rw [hl2] at hd; rw [hc] at hd
            exact absurd hd (by simp [dropPrefixL])
          | cons c2 cs2 =>
            rw [hl2] at hd; rw [hc] at hd
            have hc2 : c2 = '@' := by
              unfold dropPrefixL at hd
              simp only [beq_self_eq_true, if_true] at hd
              exact dropPrefixL_some_head _ _ _ _ _ hd
            have hdata2 : "@@".data = ['@', '@'] := rfl
            simp [pyStartsWith, hl, hl2, hdata2, startsWithL, hc, hc2]
    conv_lhs => rw [get_diff_mapping_go]
    rw [hns, hsw]
    simp [hf]

/-- C1 witness: the header @@ -3 +7,2 @@ (omitted vuln length defaults
to 1) expands to two records. -/
theorem claim_C1_witness :
    (hunkRecords "a.c" "@@ -3 +7,2 @@").length = 2 ∧
    (hunkRecords "a.c" "@@ -3 +7,2 @@")[0]? = some ⟨"a.c", some 3, some 7⟩ ∧
    (hunkRecords "a.c" "@@ -3 +7,2 @@")[1]? = some ⟨"a.c", none, some 8⟩ ∧
    get_diff_mapping_go (some "a.c") ["@@ -3 +7,2 @@"] =
      hunkRecords "a.c" "@@ -3 +7,2 @@" ++ get_diff_mapping_go (some "a.c") [] := by
  have h := claim_C1 "a.c" "@@ -3 +7,2 @@" 3 7 none (some 2) (by rfl)
  refine ⟨by simpa using h.1, ?_, ?_, h.2.2 [] (by simp)⟩
  · simpa using h.2.1 0 (by norm_num)
  · simpa using h.2.1 1 (by norm_num)

/-! ## Claim C10 -/

lemma energyDeltaUJ_eq_emod (es ee : Int) (h1 : 0 ≤ es) (h2 : es < 2 ^ 32)
    (h3 : 0 ≤ ee) (h4 : ee < 2 ^ 32) :
    energyDeltaUJ es ee = (ee - es) % 2 ^ 32 := by
  have hp : (2 : Int) ^ 32 = 4294967296 := by norm_num
  rw [hp] at h2 h4
  simp only [energyDeltaUJ, hp]
  split <;> omega

/-- C10: when both RAPL microjoule readings are available and lie in
[0, 2^32), the reported energy equals ((e_end - e_start) mod 2^32) / 10^6
joules and is never negative: a wrapped (negative) raw delta has 2^32
added, which is exactly the modulus. -/
theorem claim_C10 (es ee : Int) (h1 : 0 ≤ es) (h2 : es < 2 ^ 32)
    (h3 : 0 ≤ ee) (h4 : ee < 2 ^ 32) :
    energyField (some es) (some ee) = some (energyJoules es ee) ∧
    energyJoules es ee = (((ee - es) % 2 ^ 32 : Int) : ℚ) / 1000000 ∧
    0 ≤ energyJoules es ee := by
  have hmod := energyDeltaUJ_eq_emod es ee h1 h2 h3 h4
  refine ⟨rfl, by rw [energyJoules, hmod], ?_⟩
  rw [energyJoules]
  apply div_nonneg _ (by norm_num)
  rw [hmod]
  exact_mod_cast Int.emod_nonneg _ (by norm_num)

/-- C10 witness: the wraparound case at concrete counter readings. -/
theorem claim_C10_witness :
    energyField (some 4294967290) (some 4) = some (energyJoules 4294967290 4) ∧
    energyJoules 4294967290 4 = (((4 - 4294967290 : Int) % 2 ^ 32 : Int) : ℚ) / 1000000 ∧
    0 ≤ energyJoules 4294967290 4 :=
  claim_C10 4294967290 4 (by norm_num) (by norm_num) (by norm_num) (by norm_num)

/-! ## Claim C3 -/

lemma ratTrunc_eq_floor (q : ℚ) (h : 0 ≤ q) : ratTrunc q = Int.floor q := by
  rw [ratTrunc, Int.tdiv_eq_ediv (Rat.num_nonneg.mpr h) (by positivity), Rat.floor_def]

/-- C3 counterexample: at a dry-run duration of 0.2 s the code computes
loop_count 1 (0.2 is above the real 0.1 s threshold), while the claim's
formula (threshold 0.5 s, ceil) demands clamp(ceil(0.5/0.2), 1, 2000) = 3. -/
theorem claim_C3_counterexample :
    calibrateLoopCount (1 / 5) = 1 ∧ claimedLoopCountSpec (1 / 5) = 3 ∧ (1 : Int) ≠ 3 := by
  refine ⟨by with_unfolding_all decide, ?_, by decide⟩
  have h1 : ¬ ((1 / 2 : ℚ) ≤ 1 / 5) := by norm_num
  rw [claimedLoopCountSpec, if_neg h1]
  have h2 : ((1 / 2 : ℚ) / (1 / 5)) = 5 / 2 := by norm_num
  rw [h2]
  have h3 : Int.ceil ((5 : ℚ) / 2) = 3 := by
    rw [show ((5 : ℚ) / 2) = (5 / 2 : ℚ) by norm_num]
    norm_num [Int.ceil_eq_iff]
  rw [h3]
  norm_num

/-- C3 amended: the threshold is MIN_DURATION_SEC = 0.1 s; above it the
loop count is 1, below it the loop count is min(floor(0.5 / max(d, 1e-6)),
2000), which always lies in [5, 2000]; the claim's numeric examples
(0.002 s gives 250, 0.6 s gives 1) hold. -/
theorem claim_C3_amended (d : ℚ) :
    (MIN_DURATION_SEC ≤ d → calibrateLoopCount d = 1) ∧
    (d < MIN_DURATION_SEC →
      calibrateLoopCount d = min (ratTrunc ((1 / 2) / max d (1 / 1000000))).toNat 2000 ∧
      5 ≤ calibrateLoopCount d ∧ calibrateLoopCount d ≤ 2000) ∧
    calibrateLoopCount (1 / 500) = 250 ∧ calibrateLoopCount (3 / 5) = 1 := by
  refine ⟨?_, ?_, by with_unfolding_all decide, by with_unfolding_all decide⟩
  · intro hge
    rw [calibrateLoopCount, if_neg (not_lt.mpr hge)]
  · intro hlt
    have heq : calibrateLoopCount d = min (ratTrunc ((1 / 2) / max d (1 / 1000000))).toNat 2000 := by
      rw [calibrateLoopCount, if_pos hlt]
    refine ⟨heq, ?_, by rw [heq]; exact min_le_right _ _⟩
    rw [heq]
    have hspos : (0 : ℚ) < max d (1 / 1000000) :=
      lt_of_lt_of_le (by norm_num) (le_max_right _ _)
    have hsle : max d (1 / 1000000) ≤ 1 / 10 := by
      apply max_le (le_of_lt ?_) (by norm_num)
      exact lt_of_lt_of_le hlt (by norm_num [MIN_DURATION_SEC])
    have hq : (5 : ℚ) ≤ (1 / 2) / max d (1 / 1000000) := by
      have := div_le_div_of_nonneg_left (by norm_num : (0:ℚ) ≤ 1/2) hspos hsle
      calc (5 : ℚ) = (1 / 2) / (1 / 10) := by norm_num
        _ ≤ (1 / 2) / max d (1 / 1000000) := this
    have hq0 : (0 : ℚ) ≤ (1 / 2) / max d (1 / 1000000) := le_trans (by norm_num) hq
    have h5 : (5 : Int) ≤ ratTrunc ((1 / 2) / max d (1 / 1000000)) := by
      rw [ratTrunc_eq_floor _ hq0]
      exact Int.le_floor.mpr (by exact_mod_cast hq)
    omega

/-- C3 witness: the amended statement at the dry-run durations 0.6 s and
0.002 s. -/
theorem claim_C3_amended_witness :
    calibrateLoopCount (3 / 5) = 1 ∧
    5 ≤ calibrateLoopCount (1 / 500) ∧ calibrateLoopCount (1 / 500) ≤ 2000 ∧
    calibrateLoopCount (1 / 500) = 250 :=
  ⟨(claim_C3_amended (3 / 5)).1 (by norm_num [MIN_DURATION_SEC]),
   ((claim_C3_amended (1 / 500)).2.1 (by norm_num [MIN_DURATION_SEC])).2.1,
   ((claim_C3_amended (1 / 500)).2.1 (by norm_num [MIN_DURATION_SEC])).2.2,
   (claim_C3_amended (1 / 500)).2.2.1⟩

/-! ## Claim C6 -/

/-- C6 counterexample: a parsed cycles total of 3 with loop_count 2 is
recorded as 1, not as the exact quotient 3/2, so the recorded value does
not equal the parsed total divided by the loop count. -/
theorem claim_C6_counterexample :
    ((normalizeSmart ⟨0, 3, 0, 0⟩ 2).cycles : ℚ) ≠ (3 : ℚ) / 2 := by
  have h : (normalizeSmart ⟨0, 3, 0, 0⟩ 2).cycles = 1 := by with_unfolding_all decide
  rw [h]; norm_num

lemma ratTrunc_intCast (k : Int) : ratTrunc (k : ℚ) = k := by
  rw [ratTrunc, Rat.num_intCast, Rat.den_intCast]
  simp [Int.tdiv_one]

/-- C6 amended: with loop_count > 1, energy and elapsed time are divided
exactly; cycles and instructions are divided with truncation toward zero
(characterized by the bracketing inequalities, and equal to exact
division exactly when the loop count divides the total); IPC is computed
on the normalized values and is 0 when the normalized cycle count is not
positive. -/
theorem claim_C6_amended (m : SmartRaw) (n : Nat) (hn : 1 < n) :
    (normalizeSmart m n).energy = m.energy / n ∧
    (normalizeSmart m n).time = m.time / n ∧
    (normalizeSmart m n).cycles = ratTrunc ((m.cycles : ℚ) / n) ∧
    (normalizeSmart m n).instructions = ratTrunc ((m.instructions : ℚ) / n) ∧
    (0 ≤ m.cycles →
      (n : Int) * (normalizeSmart m n).cycles ≤ m.cycles ∧
      m.cycles < (n : Int) * ((normalizeSmart m n).cycles + 1)) ∧
    ((n : Int) ∣ m.cycles → ((normalizeSmart m n).cycles : ℚ) = (m.cycles : ℚ) / n) ∧
    (normalizeSmart m n).ipc =
      (if 0 < (normalizeSmart m n).cycles
       then ((normalizeSmart m n).instructions : ℚ) / ((normalizeSmart m n).cycles : ℚ)
       else 0) := by
  have hn0 : (0 : ℚ) < (n : ℚ) := by exact_mod_cast Nat.lt_of_lt_of_le Nat.zero_lt_one hn.le
  have hcy : (normalizeSmart m n).cycles = ratTrunc ((m.cycles : ℚ) / n) := by
    rw [normalizeSmart]; simp [if_pos hn]
  have hin : (normalizeSmart m n).instructions = ratTrunc ((m.instructions : ℚ) / n) := by
    rw [normalizeSmart]; simp [if_pos hn]
  refine ⟨by rw [normalizeSmart]; simp [if_pos hn],
          by rw [normalizeSmart]; simp [if_pos hn], hcy, hin, ?_, ?_, ?_⟩
  · intro hc
    have hq0 : (0 : ℚ) ≤ (m.cycles : ℚ) / n :=
      div_nonneg (by exact_mod_cast hc) hn0.le
    rw [hcy, ratTrunc_eq_floor _ hq0]
    constructor
    · have hfl : ((Int.floor ((m.cycles : ℚ) / n) : ℚ)) ≤ (m.cycles : ℚ) / n := Int.floor_le _
      have := (mul_le_mul_left hn0).mpr hfl
      rw [mul_div_cancel₀ _ (ne_of_gt hn0)] at this
      exact_mod_cast this
    · have hfl : (m.cycles : ℚ) / n < (Int.floor ((m.cycles : ℚ) / n) : ℚ) + 1 :=
        Int.lt_floor_add_one _
      have := (mul_lt_mul_left hn0).mpr hfl
      rw [mul_div_cancel₀ _ (ne_of_gt hn0)] at this
      exact_mod_cast this
  · intro hdvd
    obtain ⟨k, hk⟩ := hdvd
    rw [hcy, hk]
    have h1 : ((((n : Int) * k : Int)) : ℚ) / (n : ℚ) = (k : ℚ) := by
      push_cast
      exact mul_div_cancel_left₀ _ (ne_of_gt hn0)
    rw [h1, ratTrunc_intCast]
  · rfl

/-- C6 witness: normalization of a concrete measurement by loop count 3. -/
theorem claim_C6_amended_witness :
    (normalizeSmart ⟨1, 6, 9, 2⟩ 3).energy = 1 / 3 ∧
    ((normalizeSmart ⟨1, 6, 9, 2⟩ 3).cycles : ℚ) = (6 : ℚ) / 3 := by
  have h := claim_C6_amended ⟨1, 6, 9, 2⟩ 3 (by norm_num)
  exact ⟨h.1, h.2.2.2.2.2.1 (by norm_num)⟩


/-! ## Claim C4 -/

/-- C4 counterexample: the measure_energy_smart parser maps two counted
cycles rows (100 and 50) to 50 — the last row overwrites — not to their
sum 150, refuting the claim that per-event values are always summed. -/
theorem claim_C4_counterexample :
    (parseSmartLines ["100,,cycles", "50,,cycles"]).cycles = 50 ∧ (50 : Int) ≠ 100 + 50 := by
  exact ⟨by with_unfolding_all decide, by decide⟩

/-- C4 amended: measure_workload_once SUMS same-event rows ('not counted'
rows and rows whose value does not parse are skipped, so 100 plus a 'not
counted' row gives 100), while the measure_energy_smart parser ASSIGNS:
a later cycles row overwrites the stored value. -/
theorem claim_C4_amended :
    (∀ (st : WorkCounts) (l : String) (v : Int), workRowVal l "cycles" = some v →
      (parseWorkloadLine st l).cycles_total = st.cycles_total + v ∧
      (parseWorkloadLine st l).found_cycles = true) ∧
    (∀ (st : WorkCounts) (l : String) (p0 p1 p2 : String) (ps : List String),
      (pySplit l ',').map pyStrip = p0 :: p1 :: p2 :: ps →
      pyStartsWith p0 "<not counted>" = true →
      parseWorkloadLine st l = st) ∧
    ((["100,,cycles", "<not counted>,,cycles"].foldl parseWorkloadLine
        ⟨0, 0, false, false⟩).cycles_total = 100) ∧
    (∀ (st : SmartRaw) (l : String) (val : ℚ), smartCyclesRowVal l = some val →
      (parseSmartLine st l).cycles = ratTrunc val) ∧
    ((parseSmartLines ["100,,cycles", "50,,cycles"]).cycles = 50) := by
  refine ⟨?_, ?_, by with_unfolding_all decide, ?_, by with_unfolding_all decide⟩
  · intro st l v hv
    unfold workRowVal at hv
    unfold parseWorkloadLine
    cases hp : (pySplit l ',').map pyStrip with
    | nil => rw [hp] at hv; simp at hv
    | cons p0 r1 =>
      rw [hp] at hv
      cases r1 with
      | nil => simp at hv
      | cons p1 r2 =>
        cases r2 with
        | nil => simp at hv
        | cons p2 ps =>
          by_cases hnc : pyStartsWith p0 "<not counted>" = true
          · simp [hnc] at hv
          · cases hint : pyInt (pyRemoveChar (pyRemoveChar p0 ',') '.') with
            | none => simp [hnc, hint] at hv
            | some w =>
              by_cases hcy : pyContains (baseEventOf p2) "cycles" = true
              · have hw : w = v := by
                  simp [hnc, hint, hcy] at hv
                  exact hv
                subst hw
                by_cases hin : pyContains (baseEventOf p2) "instructions" = true <;>
                  simp [hnc, hint, hcy, hin]
              · simp [hnc, hint, hcy] at hv
  · intro st l p0 p1 p2 ps hp hnc
    unfold parseWorkloadLine
    rw [hp]
    simp [hnc]
  · intro st l val hval
    unfold smartCyclesRowVal at hval
    unfold parseSmartLine
    cases hp : pySplit (pyStrip l) ',' with
    | nil => rw [hp] at hval; simp at hval
    | cons p0 r1 =>
      rw [hp] at hval
      cases r1 with
      | nil => simp at hval
      | cons p1 r2 =>
        cases r2 with
        | nil => simp at hval
        | cons p2 ps =>
          by_cases hskip : (pyContains p0 "<not supported>" || p0 = "") = true
          · simp only [hskip, if_true] at hval; simp at hval
          · cases hf : pyFloat p0 with
            | none => simp [hskip, hf] at hval
            | some w =>
              by_cases he : pyContains p2 "power/energy-pkg" = true
              · simp [hskip, hf, he] at hval
              · by_cases hcy : pyContains p2 "cycles" = true
                · have hw : w = val := by
                    simp [hskip, hf, he, hcy] at hval
                    exact hval
                  subst hw
                  simp [hskip, hf, he, hcy]
                · simp [hskip, hf, he, hcy] at hval

/-- C4 witness: concrete rows for both parsers. -/
theorem claim_C4_amended_witness :
    (parseWorkloadLine ⟨5, 0, false, false⟩ "7,,cycles").cycles_total = 5 + 7 ∧
    (parseWorkloadLine ⟨5, 0, false, false⟩ "7,,cycles").found_cycles = true ∧
    parseWorkloadLine ⟨5, 0, false, false⟩ "<not counted>,,cycles" = ⟨5, 0, false, false⟩ ∧
    (parseSmartLine ⟨0, 100, 0, 0⟩ "50,,cycles").cycles = ratTrunc 50 := by
  have h := claim_C4_amended
  refine ⟨(h.1 ⟨5, 0, false, false⟩ "7,,cycles" 7 (by with_unfolding_all decide)).1,
          (h.1 ⟨5, 0, false, false⟩ "7,,cycles" 7 (by with_unfolding_all decide)).2,
          h.2.1 ⟨5, 0, false, false⟩ "<not counted>,,cycles"
            "<not counted>" "" "cycles" [] (by with_unfolding_all decide)
            (by with_unfolding_all decide),
          h.2.2.2.1 ⟨0, 100, 0, 0⟩ "50,,cycles" 50 (by with_unfolding_all decide)⟩

/-! ## Claim C7 -/

/-- C7: a failed sampling invocation contributes no measurement at all to
the aggregation list (in particular it is never a zero-valued sample); if
every repetition fails, measure_energy_smart returns the explicit no-data
marker None instead of any metric value; and the docker measure_test
variant deletes the failed iteration's partial perf output file. -/
theorem claim_C7 :
    (∀ (rest : List RepOutcome) (lc : Nat),
      collectMeasurements (.fail :: rest) lc = collectMeasurements rest lc) ∧
    (∀ (dryOk : Bool) (dur : ℚ) (reps : List RepOutcome),
      (∀ r ∈ reps, r = .fail) → measure_energy_smart dryOk dur reps = none) ∧
    (∀ (written : List String) (out : String) (ret : Int),
      ret ≠ 0 → out ∉ measureTestCleanup written out ret) := by
  refine ⟨?_, ?_, ?_⟩
  · intro rest lc
    simp [collectMeasurements, repMeasurement]
  · intro dryOk dur reps hall
    have hempty : collectMeasurements reps (calibrateLoopCount dur) = [] := by
      induction reps with
      | nil => rfl
      | cons r rs ih =>
        have hr : r = .fail := hall r (by simp)
        subst hr
        rw [show collectMeasurements (RepOutcome.fail :: rs) (calibrateLoopCount dur) =
              collectMeasurements rs (calibrateLoopCount dur) by
            simp [collectMeasurements, repMeasurement]]
        exact ih (fun x hx => hall x (by simp [hx]))
    rw [measure_energy_smart, hempty]
    rfl
  · intro written out ret hret
    rw [measureTestCleanup, if_pos hret]
    intro hmem
    rcases List.mem_filter.mp hmem with ⟨_, habs⟩
    simp at habs

/-- C7 witness: a failed repetition beside a successful one, an all-failed
session, and a removed partial output file. -/
theorem claim_C7_witness :
    collectMeasurements [.fail, .output ["7,,cycles"]] 1 =
      collectMeasurements [.output ["7,,cycles"]] 1 ∧
    measure_energy_smart true (1 / 5) [.fail, .fail, .fail] = none ∧
    "b.csv" ∉ measureTestCleanup ["a.csv", "b.csv"] "b.csv" 1 :=
  ⟨claim_C7.1 [.output ["7,,cycles"]] 1,
   claim_C7.2.1 true (1 / 5) [.fail, .fail, .fail] (by intro r hr; simpa using hr),
   claim_C7.2.2 ["a.csv", "b.csv"] "b.csv" 1 (by norm_num)⟩

/-! ## Claim C8 -/

/-- C8 counterexample: with the dry run reported failed, the energy phase
still runs and produces a measurement (loop count 250 derived from the
failed run's 0.002 s duration), refuting the claim that measurement is
skipped after a failed dry run. -/
theorem claim_C8_counterexample :
    measure_energy_smart false (1 / 500) [.output ["500,,cycles", "1000,,instructions"]] =
      some ⟨0, 2, 4, 0, 2⟩ ∧
    measure_energy_smart false (1 / 500) [.output ["500,,cycles", "1000,,instructions"]] ≠
      none := by
  constructor
  · with_unfolding_all decide
  · intro habs
    rw [show measure_energy_smart false (1 / 500)
          [.output ["500,,cycles", "1000,,instructions"]] = some ⟨0, 2, 4, 0, 2⟩ from
        by with_unfolding_all decide] at habs
    exact absurd habs (by simp)

/-- C8 amended: measure_energy_smart ignores the dry run's success flag
entirely (the result is the same function of duration and repetition
outcomes either way), and any successfully parsed repetition yields a
measurement even when the dry run failed. -/
theorem claim_C8_amended :
    (∀ (ok : Bool) (dur : ℚ) (reps : List RepOutcome),
      measure_energy_smart ok dur reps = measure_energy_smart true dur reps) ∧
    (∀ (dur : ℚ) (reps : List RepOutcome) (m : SmartMeas),
      m ∈ collectMeasurements reps (calibrateLoopCount dur) →
      measure_energy_smart false dur reps ≠ none) := by
  refine ⟨fun _ _ _ => rfl, ?_⟩
  intro dur reps m hm
  rw [measure_energy_smart]
  cases hc : collectMeasurements reps (calibrateLoopCount dur) with
  | nil => rw [hc] at hm; simp at hm
  | cons x xs => simp [aggregateMeasurements]

/-- C8 witness: the flag-independence and a concrete successful repetition
after a failed dry run. -/
theorem claim_C8_amended_witness :
    measure_energy_smart false (1 / 500) [.output ["500,,cycles", "1000,,instructions"]] =
      measure_energy_smart true (1 / 500) [.output ["500,,cycles", "1000,,instructions"]] ∧
    measure_energy_smart false (1 / 5) [.output ["500,,cycles"]] ≠ none := by
  refine ⟨claim_C8_amended.1 false (1 / 500) [.output ["500,,cycles", "1000,,instructions"]], ?_⟩
  apply claim_C8_amended.2 (1 / 5) [.output ["500,,cycles"]]
    (normalizeSmart (parseSmartLines ["500,,cycles"]) (calibrateLoopCount (1 / 5)))
  with_unfolding_all decide


/-! ## Claim C2 -/

/-- C2 counterexample: in the claimed scenario the code reports vuln-side
hit counts 0, 3, 0 — the rows for vuln lines 10 and 12 carry 0, not the
claimed N/A. -/
theorem claim_C2_counterexample :
    (c2Rows.map (fun r => r.vuln_hits)) = [.cnt 0, .cnt 3, .cnt 0] ∧
    HitVal.cnt 0 ≠ HitVal.na := by
  exact ⟨by with_unfolding_all decide, by simp⟩

/-- C2 amended: the joiner produces exactly three rows for the scenario,
but a present line number whose side has no coverage entry reports hit
count 0, not N/A (N/A appears only when the side's line number itself is
absent): the rows are (10, 10, 0, 5), (11, None, 3, N/A),
(12, None, 0, N/A), flagged executable exactly when at least one side has
a coverage entry for its line (true, true, false). -/
theorem claim_C2_amended :
    c2Rows = [⟨"x.c", some 10, "[ADDED]", .cnt 0, some 10, "[DELETED]", .cnt 5, true⟩,
              ⟨"x.c", some 11, "[ADDED]", .cnt 3, none, "[DELETED]", .na, true⟩,
              ⟨"x.c", some 12, "[ADDED]", .cnt 0, none, "[DELETED]", .na, false⟩] := by
  with_unfolding_all decide

/-! ## Claim C5 -/

lemma processDiffMap_fst (vCov fCov : LcovIndex) (vCont fCont : ContMap)
    (dm : List LineCorr) :
    (processDiffMap vCov fCov vCont fCont dm).1 =
      dm.map (mkRow vCov fCov vCont fCont) := by
  have key : ∀ (dm : List LineCorr) (acc : List JoinRow × PairTotals),
      (dm.foldl (processItem vCov fCov vCont fCont) acc).1 =
        acc.1 ++ dm.map (mkRow vCov fCov vCont fCont) := by
    intro dm
    induction dm with
    | nil => intro acc; simp
    | cons it rest ih =>
      intro acc
      rw [List.foldl_cons, ih]
      simp [processItem]
  simpa using key dm ([], ⟨0, 0, 0, 0⟩)

lemma processDiffMap_snd (vCov fCov : LcovIndex) (vCont fCont : ContMap)
    (dm : List LineCorr) :
    (processDiffMap vCov fCov vCont fCont dm).2 =
      ⟨dm.countP (fun it => truthyLine it.v_lnum),
       dm.countP (fun it => truthyLine it.v_lnum && hitPos vCov it.file it.v_lnum),
       dm.countP (fun it => truthyLine it.f_lnum),
       dm.countP (fun it => truthyLine it.f_lnum && hitPos fCov it.file it.f_lnum)⟩ := by
  have key : ∀ (dm : List LineCorr) (acc : List JoinRow × PairTotals),
      (dm.foldl (processItem vCov fCov vCont fCont) acc).2 =
        ⟨acc.2.v_total + dm.countP (fun it => truthyLine it.v_lnum),
         acc.2.v_hit + dm.countP (fun it => truthyLine it.v_lnum && hitPos vCov it.file it.v_lnum),
         acc.2.f_total + dm.countP (fun it => truthyLine it.f_lnum),
         acc.2.f_hit + dm.countP (fun it => truthyLine it.f_lnum && hitPos fCov it.file it.f_lnum)⟩ := by
    intro dm
    induction dm with
    | nil => intro acc; simp
    | cons it rest ih =>
      intro acc
      rw [List.foldl_cons, ih]
      simp only [processItem, updTotals, List.countP_cons, PairTotals.mk.injEq]
      refine ⟨?_, ?_, ?_, ?_⟩ <;> (split <;> omega)
  rw [processDiffMap, key]
  simp

lemma covPctBounds (h t : Nat) (hle : h ≤ t) :
    0 ≤ (if 0 < t then ((h : ℚ) / (t : ℚ)) * 100 else 0) ∧
    (if 0 < t then ((h : ℚ) / (t : ℚ)) * 100 else 0) ≤ 100 := by
  by_cases ht : 0 < t
  · rw [if_pos ht]
    have htq : (0 : ℚ) < (t : ℚ) := by exact_mod_cast ht
    have hdiv : (h : ℚ) / (t : ℚ) ≤ 1 := by
      rw [div_le_one htq]
      exact_mod_cast hle
    constructor
    · positivity
    · nlinarith
  · rw [if_neg ht]
    norm_num

/-- C5 amended: the master view keeps every row and the clean view keeps
exactly the rows flagged executable; but the per-pair totals count every
row whose side has a (truthy) line number — executable or not — and the
hit counters count rows with a strictly positive looked-up hit count;
coverage percentage is hits/total*100 when total > 0 and 0 when total = 0,
and always lies in [0, 100]. -/
theorem claim_C5_amended (vCov fCov : LcovIndex) (vCont fCont : ContMap)
    (dm : List LineCorr) :
    masterView (processDiffMap vCov fCov vCont fCont dm).1 =
      (processDiffMap vCov fCov vCont fCont dm).1 ∧
    ((cleanView (processDiffMap vCov fCov vCont fCont dm).1).all
        (fun r => r.is_executable)) = true ∧
    (cleanView (processDiffMap vCov fCov vCont fCont dm).1).length =
      ((processDiffMap vCov fCov vCont fCont dm).1).countP (fun r => r.is_executable) ∧
    (processDiffMap vCov fCov vCont fCont dm).2.v_total =
      dm.countP (fun it => truthyLine it.v_lnum) ∧
    (processDiffMap vCov fCov vCont fCont dm).2.v_hit =
      dm.countP (fun it => truthyLine it.v_lnum && hitPos vCov it.file it.v_lnum) ∧
    (processDiffMap vCov fCov vCont fCont dm).2.f_total =
      dm.countP (fun it => truthyLine it.f_lnum) ∧
    (processDiffMap vCov fCov vCont fCont dm).2.f_hit =
      dm.countP (fun it => truthyLine it.f_lnum && hitPos fCov it.file it.f_lnum) ∧
    (processDiffMap vCov fCov vCont fCont dm).2.v_hit ≤
      (processDiffMap vCov fCov vCont fCont dm).2.v_total ∧
    (processDiffMap vCov fCov vCont fCont dm).2.f_hit ≤
      (processDiffMap vCov fCov vCont fCont dm).2.f_total ∧
    0 ≤ (mkSummary (processDiffMap vCov fCov vCont fCont dm).2).v_cov_pct ∧
    (mkSummary (processDiffMap vCov fCov vCont fCont dm).2).v_cov_pct ≤ 100 ∧
    0 ≤ (mkSummary (processDiffMap vCov fCov vCont fCont dm).2).f_cov_pct ∧
    (mkSummary (processDiffMap vCov fCov vCont fCont dm).2).f_cov_pct ≤ 100 := by
  have hsnd := processDiffMap_snd vCov fCov vCont fCont dm
  have hvle : (processDiffMap vCov fCov vCont fCont dm).2.v_hit ≤
      (processDiffMap vCov fCov vCont fCont dm).2.v_total := by
    rw [hsnd]
    exact List.countP_mono_left (fun x _ hx => by simp only [Bool.and_eq_true] at hx; exact hx.1)
  have hfle : (processDiffMap vCov fCov vCont fCont dm).2.f_hit ≤
      (processDiffMap vCov fCov vCont fCont dm).2.f_total := by
    rw [hsnd]
    exact List.countP_mono_left (fun x _ hx => by simp only [Bool.and_eq_true] at hx; exact hx.1)
  have hv := covPctBounds (processDiffMap vCov fCov vCont fCont dm).2.v_hit
    (processDiffMap vCov fCov vCont fCont dm).2.v_total hvle
  have hf := covPctBounds (processDiffMap vCov fCov vCont fCont dm).2.f_hit
    (processDiffMap vCov fCov vCont fCont dm).2.f_total hfle
  refine ⟨List.filter_true _, ?_, ?_, by rw [hsnd], by rw [hsnd], by rw [hsnd],
          by rw [hsnd], hvle, hfle, hv.1, hv.2, hf.1, hf.2⟩
  · simp [cleanView, rowsToWrite, List.all_eq_true, List.mem_filter]
  · rw [cleanView, rowsToWrite, List.countP_eq_length_filter]

/-- C5 counterexample: one changed line with no coverage entry on either
side is counted in v_total (= 1) although zero rows are executable,
refuting the claim that the totals count only executable lines. -/
theorem claim_C5_counterexample :
    (processDiffMap [] [] [] [] [⟨"x.c", some 10, some 10⟩]).2.v_total = 1 ∧
    ((processDiffMap [] [] [] [] [⟨"x.c", some 10, some 10⟩]).1.countP
        (fun r => r.is_executable)) = 0 ∧
    (1 : Nat) ≠ 0 := by
  exact ⟨by with_unfolding_all decide, by with_unfolding_all decide, by simp⟩

/-! ## Claim C9 -/

lemma alookup_map_ne {α β : Type} [DecidableEq α] (l : List (α × β)) (k : α) (v : β)
    (g : α) (h : g ≠ k) :
    alookup (l.map (fun p => if p.1 = k then (k, v) else p)) g = alookup l g := by
  induction l with
  | nil => rfl
  | cons p r ih =>
    obtain ⟨a, b⟩ := p
    rw [List.map_cons]
    by_cases hp : a = k
    · subst hp
      rw [show (if (a, b).1 = a then (a, v) else (a, b)) = (a, v) by simp]
      simp [alookup, Ne.symm h, ih]
    · rw [show (if (a, b).1 = k then (k, v) else (a, b)) = (a, b) by simp [hp]]
      simp [alookup, ih]

lemma alookup_map_self {α β : Type} [DecidableEq α] (l : List (α × β)) (k : α) (v : β)
    (h : (alookup l k).isSome = true) :
    alookup (l.map (fun p => if p.1 = k then (k, v) else p)) k = some v := by
  induction l with
  | nil => simp [alookup] at h
  | cons p r ih =>
    obtain ⟨a, b⟩ := p
    rw [List.map_cons]
    by_cases hp : a = k
    · subst hp
      rw [show (if (a, b).1 = a then (a, v) else (a, b)) = (a, v) by simp]
      simp [alookup]
    · simp only [alookup, if_neg hp] at h
      rw [show (if (a, b).1 = k then (k, v) else (a, b)) = (a, b) by simp [hp]]
      simp only [alookup, if_neg hp]
      exact ih h

lemma alookup_append_single_self {α β : Type} [DecidableEq α] (l : List (α × β))
    (k : α) (v : β) (h : alookup l k = none) :
    alookup (l ++ [(k, v)]) k = some v := by
  induction l with
  | nil => simp [alookup]
  | cons p r ih =>
    obtain ⟨a, b⟩ := p
    by_cases hp : a = k
    · simp [alookup, if_pos hp] at h
    · simp only [alookup, if_neg hp] at h
      simp only [List.cons_append, alookup, if_neg hp]
      exact ih h

lemma alookup_append_single_ne {α β : Type} [DecidableEq α] (l : List (α × β))
    (k : α) (v : β) (g : α) (h : g ≠ k) :
    alookup (l ++ [(k, v)]) g = alookup l g := by
  induction l with
  | nil => simp [alookup, Ne.symm h]
  | cons p r ih =>
    obtain ⟨a, b⟩ := p
    by_cases hp : a = g
    · simp [alookup, if_pos hp]
    · simp only [List.cons_append, alookup, if_neg hp]
      exact ih

/-- Dict assignment seen through lookup: the updated key maps to the new
value, every other key is untouched. -/
lemma alookup_aupdate {α β : Type} [DecidableEq α] (l : List (α × β)) (k : α) (v : β)
    (g : α) :
    alookup (aupdate l k v) g = if g = k then some v else alookup l g := by
  by_cases hk : (alookup l k).isSome = true
  · rw [aupdate, if_pos hk]
    by_cases hgk : g = k
    · subst hgk
      rw [if_pos rfl]
      exact alookup_map_self l g v hk
    · rw [alookup_map_ne l k v g hgk, if_neg hgk]
  · rw [aupdate, if_neg hk]
    by_cases hgk : g = k
    · subst hgk
      rw [if_pos rfl]
      exact alookup_append_single_self l g v (Option.not_isSome_iff_eq_none.mp hk)
    · rw [alookup_append_single_ne l k v g hgk, if_neg hgk]

lemma sfKeys_cons (norm : String → String) (l : String) (rest : List String) :
    sfKeys norm (l :: rest) =
      (if pyStartsWith (pyStrip l) "SF:" = true
       then norm (pyDrop (pyStrip l) 3) :: sfKeys norm rest
       else sfKeys norm rest) := by
  by_cases hsf : pyStartsWith (pyStrip l) "SF:" = true
  · simp [sfKeys, hsf]
  · simp [sfKeys, hsf]

lemma parse_lcov_go_nil (norm : String → String) (csf : Option String) (cov : LcovIndex) :
    parse_lcov_go norm csf cov [] = some cov := rfl

lemma parse_lcov_go_cons (norm : String → String) (csf : Option String) (cov : LcovIndex)
    (l : String) (rest : List String) :
    parse_lcov_go norm csf cov (l :: rest) =
      (if pyStartsWith (pyStrip l) "SF:" = true then
        parse_lcov_go norm (some (norm (pyDrop (pyStrip l) 3)))
          (aupdate cov (norm (pyDrop (pyStrip l) 3)) []) rest
      else if pyStartsWith (pyStrip l) "DA:" = true then
        match csf with
        | some sf =>
            if sf ≠ "" then
              match pySplit (pyDrop (pyStrip l) 3) ',' with
              | p0 :: p1 :: _ =>
                  match pyInt p0, pyInt p1 with
                  | some ln, some h =>
                      match alookup cov sf with
                      | some m => parse_lcov_go norm csf (aupdate cov sf (aupdate m ln h)) rest
                      | none => none
                  | _, _ => none
              | _ => none
            else parse_lcov_go norm csf cov rest
        | none => parse_lcov_go norm csf cov rest
      else parse_lcov_go norm csf cov rest) := rfl

lemma daRecorded_nil (norm : String → String) (f : String) (ln : Int) (csf : Option String) :
    daRecorded norm f ln csf [] = false := rfl

lemma daRecorded_cons (norm : String → String) (f : String) (ln : Int) (csf : Option String)
    (l : String) (rest : List String) :
    daRecorded norm f ln csf (l :: rest) =
      (if pyStartsWith (pyStrip l) "SF:" = true then
        daRecorded norm f ln (some (norm (pyDrop (pyStrip l) 3))) rest
      else if pyStartsWith (pyStrip l) "DA:" = true then
        match csf with
        | some sf =>
            if sf ≠ "" then
              ((match pySplit (pyDrop (pyStrip l) 3) ',' with
                | p0 :: _ :: _ => decide (sf = f) && (pyInt p0 == some ln)
                | _ => false) || daRecorded norm f ln csf rest)
            else daRecorded norm f ln csf rest
        | none => daRecorded norm f ln csf rest
      else daRecorded norm f ln csf rest) := rfl

lemma daRecordedVal_cons (norm : String → String) (f : String) (ln h : Int)
    (csf : Option String) (l : String) (rest : List String) :
    daRecordedVal norm f ln h csf (l :: rest) =
      (if pyStartsWith (pyStrip l) "SF:" = true then
        daRecordedVal norm f ln h (some (norm (pyDrop (pyStrip l) 3))) rest
      else if pyStartsWith (pyStrip l) "DA:" = true then
        match csf with
        | some sf =>
            if sf ≠ "" then
              ((match pySplit (pyDrop (pyStrip l) 3) ',' with
                | p0 :: p1 :: _ =>
                    decide (sf = f) && (pyInt p0 == some ln) && (pyInt p1 == some h)
                | _ => false) || daRecordedVal norm f ln h csf rest)
            else daRecordedVal norm f ln h csf rest
        | none => daRecordedVal norm f ln h csf rest
      else daRecordedVal norm f ln h csf rest) := rfl

set_option linter.unusedVariables false in
lemma parse_go_char (norm : String → String) (lines : List String) :
    ∀ (csf : Option String) (cov cov' : LcovIndex),
      parse_lcov_go norm csf cov lines = some cov' →
      (sfKeys norm lines).Nodup →
      (∀ g : String, (alookup cov g).isSome = true → g ∉ sfKeys norm lines) →
      (∀ c : String, csf = some c → c ∉ sfKeys norm lines) →
      ∀ (f : String) (ln : Int),
        ((lookupLine cov' f ln).isSome = true ↔
          (daRecorded norm f ln csf lines = true ∨ (lookupLine cov f ln).isSome = true)) ∧
        (∀ h : Int, lookupLine cov' f ln = some h →
          (daRecordedVal norm f ln h csf lines = true ∨ lookupLine cov f ln = some h)) := by
  induction lines with
  | nil =>
    intro csf cov cov' hp _ _ _ f ln
    rw [parse_lcov_go_nil] at hp
    have hcc : cov = cov' := by simpa using hp
    subst hcc
    refine ⟨?_, ?_⟩
    · rw [daRecorded_nil]; simp
    · intro h hla; right; exact hla
  | cons l rest ih =>
    intro csf cov cov' hp hnd hkeys hcsf f ln
    rw [parse_lcov_go_cons] at hp
    rw [sfKeys_cons] at hnd
    by_cases hsf : pyStartsWith (pyStrip l) "SF:" = true
    · -- an SF: line opens (and resets) a section
      rw [if_pos hsf] at hp
      rw [if_pos hsf] at hnd
      have hnd1 : norm (pyDrop (pyStrip l) 3) ∉ sfKeys norm rest := (List.nodup_cons.mp hnd).1
      have hnd2 : (sfKeys norm rest).Nodup := (List.nodup_cons.mp hnd).2
      have hkeysrest : ∀ g : String, (alookup cov g).isSome = true → g ∉ sfKeys norm rest := by
        intro g hg
        have := hkeys g hg
        rw [sfKeys_cons, if_pos hsf] at this
        simp only [List.mem_cons, not_or] at this
        exact this.2
      have hkeys2 : ∀ g : String,
          (alookup (aupdate cov (norm (pyDrop (pyStrip l) 3)) []) g).isSome = true →
          g ∉ sfKeys norm rest := by
        intro g hg
        rw [alookup_aupdate] at hg
        by_cases hgsf : g = norm (pyDrop (pyStrip l) 3)
        · subst hgsf; exact hnd1
        · rw [if_neg hgsf] at hg
          exact hkeysrest g hg
      have hcsf2 : ∀ c : String,
          (some (norm (pyDrop (pyStrip l) 3)) : Option String) = some c →
          c ∉ sfKeys norm rest := by
        intro c hc
        have hceq : c = norm (pyDrop (pyStrip l) 3) := by
          injection hc with hc2
          exact hc2.symm
        subst hceq; exact hnd1
      have key := ih (some (norm (pyDrop (pyStrip l) 3)))
        (aupdate cov (norm (pyDrop (pyStrip l) 3)) []) cov' hp hnd2 hkeys2 hcsf2 f ln
      have hda : daRecorded norm f ln csf (l :: rest) =
          daRecorded norm f ln (some (norm (pyDrop (pyStrip l) 3))) rest := by
        rw [daRecorded_cons, if_pos hsf]
      have hdav : ∀ h : Int, daRecordedVal norm f ln h csf (l :: rest) =
          daRecordedVal norm f ln h (some (norm (pyDrop (pyStrip l) 3))) rest := by
        intro h; rw [daRecordedVal_cons, if_pos hsf]
      by_cases hfsf : f = norm (pyDrop (pyStrip l) 3)
      · have hcovf : alookup cov f = none := by
          by_cases hf1 : (alookup cov f).isSome = true
          · exfalso
            have := hkeys f hf1
            rw [sfKeys_cons, if_pos hsf] at this
            simp only [List.mem_cons, not_or] at this
            exact this.1 hfsf
          · exact Option.not_isSome_iff_eq_none.mp hf1
        have hlcov : lookupLine cov f ln = none := by rw [lookupLine, hcovf]; rfl
        have hlupd : lookupLine (aupdate cov (norm (pyDrop (pyStrip l) 3)) []) f ln = none := by
          rw [lookupLine, alookup_aupdate, if_pos hfsf]
          rfl
        refine ⟨?_, ?_⟩
        · have k1 := key.1
          rw [hlupd] at k1
          simp only [Option.isSome_none, Bool.false_eq_true, or_false] at k1
          rw [hda, hlcov]
          simp [k1]
        · intro h hla
          rcases key.2 h hla with hv | habs
          · left; rw [hdav]; exact hv
          · rw [hlupd] at habs; exact absurd habs (by simp)
      · have hlupd : lookupLine (aupdate cov (norm (pyDrop (pyStrip l) 3)) []) f ln =
            lookupLine cov f ln := by
          rw [lookupLine, lookupLine, alookup_aupdate, if_neg hfsf]
        refine ⟨?_, ?_⟩
        · have k1 := key.1
          rw [hlupd] at k1
          rw [hda]; exact k1
        · intro h hla
          rcases key.2 h hla with hv | hold
          · left; rw [hdav]; exact hv
          · right; rw [hlupd] at hold; exact hold
    · -- not an SF: line
      rw [if_neg hsf] at hp
      rw [if_neg hsf] at hnd
      have hkeysrest : ∀ g : String, (alookup cov g).isSome = true → g ∉ sfKeys norm rest := by
        intro g hg
        have := hkeys g hg
        rw [sfKeys_cons, if_neg hsf] at this
        exact this
      have hcsfrest : ∀ c : String, csf = some c → c ∉ sfKeys norm rest := by
        intro c hc
        have := hcsf c hc
        rw [sfKeys_cons, if_neg hsf] at this
        exact this
      by_cases hdc : pyStartsWith (pyStrip l) "DA:" = true
      · -- a DA: line
        rw [if_pos hdc] at hp
        cases hcv : csf with
        | none =>
          subst hcv
          have key := ih none cov cov' hp hnd hkeysrest hcsfrest f ln
          have hda : daRecorded norm f ln none (l :: rest) =
              daRecorded norm f ln none rest := by
            rw [daRecorded_cons, if_neg hsf, if_pos hdc]
          have hdav : ∀ h : Int, daRecordedVal norm f ln h none (l :: rest) =
              daRecordedVal norm f ln h none rest := by
            intro h; rw [daRecordedVal_cons, if_neg hsf, if_pos hdc]
          refine ⟨by rw [hda]; exact key.1, ?_⟩
          intro h hla
          rcases key.2 h hla with hv | hold
          · left; rw [hdav]; exact hv
          · right; exact hold
        | some sf =>
          subst hcv
          dsimp only at hp
          by_cases hse : sf = ""
          · subst hse
            rw [if_neg (by simp : ¬ (("" : String) ≠ ""))] at hp
            have key := ih (some "") cov cov' hp hnd hkeysrest hcsfrest f ln
            have hda : daRecorded norm f ln (some "") (l :: rest) =
                daRecorded norm f ln (some "") rest := by
              rw [daRecorded_cons, if_neg hsf, if_pos hdc]
              simp
            have hdav : ∀ h : Int, daRecordedVal norm f ln h (some "") (l :: rest) =
                daRecordedVal norm f ln h (some "") rest := by
              intro h
              rw [daRecordedVal_cons, if_neg hsf, if_pos hdc]
              simp
            refine ⟨by rw [hda]; exact key.1, ?_⟩
            intro h hla
            rcases key.2 h hla with hv | hold
            · left; rw [hdav]; exact hv
            · right; exact hold
          · -- a live DA: line inside section sf
            rw [if_pos hse] at hp
            have hda0 : daRecorded norm f ln (some sf) (l :: rest) =
                ((match pySplit (pyDrop (pyStrip l) 3) ',' with
                  | p0 :: _ :: _ => decide (sf = f) && (pyInt p0 == some ln)
                  | _ => false) || daRecorded norm f ln (some sf) rest) := by
              rw [daRecorded_cons, if_neg hsf, if_pos hdc]
              dsimp only
              rw [if_pos hse]
            have hdav0 : ∀ h : Int, daRecordedVal norm f ln h (some sf) (l :: rest) =
                ((match pySplit (pyDrop (pyStrip l) 3) ',' with
                  | p0 :: p1 :: _ =>
                      decide (sf = f) && (pyInt p0 == some ln) && (pyInt p1 == some h)
                  | _ => false) || daRecordedVal norm f ln h (some sf) rest) := by
              intro h
              rw [daRecordedVal_cons, if_neg hsf, if_pos hdc]
              dsimp only
              rw [if_pos hse]
            cases hsp : pySplit (pyDrop (pyStrip l) 3) ',' with
            | nil => rw [hsp] at hp; exact absurd hp (by simp)
            | cons p0 r1 =>
              cases r1 with
              | nil => rw [hsp] at hp; exact absurd hp (by simp)
              | cons p1 r2 =>
                rw [hsp] at hp
                dsimp only at hp
                cases hpln : pyInt p0 with
                | none => rw [hpln] at hp; exact absurd hp (by simp)
                | some ln0 =>
                  rw [hpln] at hp
                  cases hph : pyInt p1 with
                  | none => rw [hph] at hp; exact absurd hp (by simp)
                  | some h0 =>
                    rw [hph] at hp
                    dsimp only at hp
                    cases hm : alookup cov sf with
                    | none => rw [hm] at hp; exact absurd hp (by simp)
                    | some m =>
                      rw [hm] at hp
                      dsimp only at hp
                      have hkeys2 : ∀ g : String,
                          (alookup (aupdate cov sf (aupdate m ln0 h0)) g).isSome = true →
                          g ∉ sfKeys norm rest := by
                        intro g hg
                        rw [alookup_aupdate] at hg
                        by_cases hgsf : g = sf
                        · subst hgsf; exact hcsfrest g rfl
                        · rw [if_neg hgsf] at hg
                          exact hkeysrest g hg
                      have key := ih (some sf) (aupdate cov sf (aupdate m ln0 h0)) cov'
                        hp hnd hkeys2 hcsfrest f ln
                      have hlcovsf : lookupLine cov sf ln = alookup m ln := by
                        rw [lookupLine, hm]; rfl
                      by_cases hfsf : f = sf
                      · subst hfsf
                        have hl2 : lookupLine (aupdate cov f (aupdate m ln0 h0)) f ln =
                            (if ln = ln0 then some h0 else alookup m ln) := by
                          rw [lookupLine, alookup_aupdate, if_pos rfl]
                          dsimp only [Option.bind]
                          rw [alookup_aupdate]
                        by_cases hlneq : ln = ln0
                        · refine ⟨?_, ?_⟩
                          · have hsomev : (lookupLine (aupdate cov f (aupdate m ln0 h0)) f ln).isSome =
                                true := by
                              rw [hl2, if_pos hlneq]; rfl
                            have hcov' : (lookupLine cov' f ln).isSome = true :=
                              key.1.mpr (Or.inr hsomev)
                            rw [hcov', hda0, hsp]
                            simp [hpln, hlneq]
                          · intro h hla
                            rcases key.2 h hla with hv | hval
                            · left
                              rw [hdav0, hsp]
                              simp [hv]
                            · rw [hl2, if_pos hlneq] at hval
                              left
                              rw [hdav0, hsp]
                              have hh : h0 = h := by simpa using hval
                              simp [hpln, hph, hlneq, hh]
                        · have hl2' : lookupLine (aupdate cov f (aupdate m ln0 h0)) f ln =
                              lookupLine cov f ln := by
                            rw [hl2, if_neg hlneq, hlcovsf]
                          refine ⟨?_, ?_⟩
                          · have k1 := key.1
                            rw [hl2'] at k1
                            rw [hda0, hsp, k1]
                            dsimp only
                            have hhead : (decide (f = f) && (pyInt p0 == some ln)) = false := by
                              simp [hpln]
                              intro habs
                              exact absurd habs.symm hlneq
                            rw [hhead]
                            simp
                          · intro h hla
                            rcases key.2 h hla with hv | hval
                            · left
                              rw [hdav0, hsp]
                              simp [hv]
                            · right
                              rw [hl2'] at hval
                              exact hval
                      · have hl2' : lookupLine (aupdate cov sf (aupdate m ln0 h0)) f ln =
                            lookupLine cov f ln := by
                          rw [lookupLine, lookupLine, alookup_aupdate, if_neg hfsf]
                        refine ⟨?_, ?_⟩
                        · have k1 := key.1
                          rw [hl2'] at k1
                          rw [hda0, hsp, k1]
                          dsimp only
                          have hhead : (decide (sf = f) && (pyInt p0 == some ln)) = false := by
                            have : ¬ (sf = f) := fun habs => hfsf habs.symm
                            simp [this]
                          rw [hhead]
                          simp
                        · intro h hla
                          rcases key.2 h hla with hv | hval
                          · left
                            rw [hdav0, hsp]
                            simp [hv]
                          · right
                            rw [hl2'] at hval
                            exact hval
      · -- neither SF: nor DA:
        rw [if_neg hdc] at hp
        have key := ih csf cov cov' hp hnd hkeysrest hcsfrest f ln
        have hda : daRecorded norm f ln csf (l :: rest) = daRecorded norm f ln csf rest := by
          rw [daRecorded_cons, if_neg hsf, if_neg hdc]
        have hdav : ∀ h : Int, daRecordedVal norm f ln h csf (l :: rest) =
            daRecordedVal norm f ln h csf rest := by
          intro h
          rw [daRecordedVal_cons, if_neg hsf, if_neg hdc]
        refine ⟨by rw [hda]; exact key.1, ?_⟩
        intro h hla
        rcases key.2 h hla with hv | hold
        · left; rw [hdav]; exact hv
        · right; exact hold

/-- C9: parsing a missing coverage report yields the empty index with no
error; and for an existing report whose sections name distinct files
(after path normalization), a (file, line) pair is present in the index
exactly when an explicit DA record for that line appears in that file's
section — lines never recorded are absent, not mapped to a zero hit
count, and every stored hit count comes from an explicit DA record. -/
theorem claim_C9 (norm : String → String) :
    parse_lcov_info norm none = some [] ∧
    ∀ (lines : List String) (cov : LcovIndex) (f : String) (ln : Int),
      parse_lcov_info norm (some lines) = some cov →
      (sfKeys norm lines).Nodup →
      (((lookupLine cov f ln).isSome = true) ↔ daRecorded norm f ln none lines = true) ∧
      (∀ h : Int, lookupLine cov f ln = some h →
        daRecordedVal norm f ln h none lines = true) := by
  refine ⟨rfl, ?_⟩
  intro lines cov f ln hp hnd
  have key := parse_go_char norm lines none [] cov hp hnd
    (by intro g hg; simp [alookup] at hg)
    (by intro c hc; exact absurd hc (by simp)) f ln
  constructor
  · rw [key.1]
    have hnil : lookupLine ([] : LcovIndex) f ln = none := rfl
    rw [hnil]
    simp
  · intro h hla
    rcases key.2 h hla with hv | habs
    · exact hv
    · exact absurd habs (by simp [lookupLine, alookup])

/-- C9 witness: a concrete one-section report and the missing-file case. -/
theorem claim_C9_witness :
    ((lookupLine [("x.c", [(4, 0), (5, 7)])] "x.c" 5).isSome = true ↔
      daRecorded (fun s => s) "x.c" 5 none ["SF:x.c", "DA:4,0", "DA:5,7"] = true) ∧
    parse_lcov_info (fun s => s) none = some [] := by
  constructor
  · exact ((claim_C9 (fun s => s)).2 ["SF:x.c", "DA:4,0", "DA:5,7"]
      [("x.c", [(4, 0), (5, 7)])] "x.c" 5
      (by with_unfolding_all decide) (by with_unfolding_all decide)).1
  · exact (claim_C9 (fun s => s)).1
